import Mathlib

/-!
Verification of the feature-engineering and risk-scoring pipeline of the
student-personalizer server (`src/server/src/services/ml.py`).

The Python service is shallowly embedded here:

* database rows (`Student`, `Grade`, `AttendanceRecord`) become Lean
  structures and a database state is three lists of rows;
* pandas aggregations of `MLService._build_feature_dataframe` become
  explicit list computations over `ℚ` (the float columns are modelled as
  exact rationals);
* the two fitted scikit-learn models are opaque deterministic row-scoring
  functions, passed as parameters (`gradeModel : List ℚ → ℚ` and a
  `Classifier`); the numeric square root used by `pandas.std` is likewise
  a parameter `sqrtFn : ℚ → ℚ`, with a concrete executable approximation
  `sqrtApprox` used to evaluate on closed inputs;
* the module-level prediction cache and the on-disk model artifacts become
  an explicit `SysState`, and `MLService.train`'s effects on it become a
  small-step sequence whose intermediate states model what a concurrent
  reader can observe.

Names follow the Python source where Lean allows it.
-/

set_option allowUnsafeReducibility true

attribute [local semireducible] Rat.add Rat.mul Rat.inv Rat.sub Rat.neg Rat.div

/-- Decidable equality for `Except`, so closed runs of the fallible
operations can be checked by evaluation. -/
instance {ε α : Type} [DecidableEq ε] [DecidableEq α] : DecidableEq (Except ε α) := fun a b =>
  match a, b with
  | .error x, .error y =>
    if h : x = y then .isTrue (by rw [h])
    else .isFalse fun c => by injection c; exact h (by assumption)
  | .error _, .ok _ => .isFalse fun c => by injection c
  | .ok _, .error _ => .isFalse fun c => by injection c
  | .ok x, .ok y =>
    if h : x = y then .isTrue (by rw [h])
    else .isFalse fun c => by injection c; exact h (by assumption)

/-! ### Constants (`src/constants.py`) -/

/-- `AT_RISK_GRADE_THRESHOLD = 55`. -/
def AT_RISK_GRADE_THRESHOLD : ℚ := 55

/-- `MIN_TRAINING_SAMPLES = 5`. -/
def MIN_TRAINING_SAMPLES : ℕ := 5

/-- `HIGH_RISK_THRESHOLD = 0.7`. -/
def HIGH_RISK_THRESHOLD : ℚ := 7/10

/-- `MEDIUM_RISK_THRESHOLD = 0.3`. -/
def MEDIUM_RISK_THRESHOLD : ℚ := 3/10

/-- `DEFAULT_PAGE_SIZE = 10`. -/
def DEFAULT_PAGE_SIZE : ℕ := 10

/-! ### Rational rounding (Python `round`, numpy/pandas `.round`)

Python's `round(x, k)` and pandas' `.round(k)` round to the nearest
multiple of `10^-k`, ties to even.  We model them exactly on `ℚ`. -/

/-- Floor of a rational as an integer (`num.fdiv den`, rounding toward `-∞`). -/
def ratFloor (q : ℚ) : ℤ := q.num.fdiv q.den

/-- Round a rational to the nearest integer, ties to even. -/
def halfEvenRound (x : ℚ) : ℤ :=
  let f := ratFloor x
  let r := x - (f : ℚ)
  if r < 1/2 then f
  else if 1/2 < r then f + 1
  else if f % 2 = 0 then f else f + 1

/-- Round a rational to `k` decimal places, ties to even (Python `round(x, k)`). -/
def roundQ (k : ℕ) (x : ℚ) : ℚ := (halfEvenRound (x * 10 ^ k) : ℚ) / 10 ^ k

/-! ### A concrete executable square root approximation

`pandas.DataFrame.std` takes a floating-point square root.  The pipeline
below is parametric in the square-root function `sqrtFn : ℚ → ℚ`; for
closed evaluations we use fueled integer Newton iteration, accurate to
4 decimal places, which is far finer than the 2-decimal rounding the
pipeline applies to `grade_std`. -/

/-- Fueled integer Newton iteration for `Nat.sqrt`-style square roots
(structural recursion on fuel so the kernel can evaluate it). -/
def newtonSqrtAux (n : ℕ) : ℕ → ℕ → ℕ
  | 0, g => g
  | fuel + 1, g =>
    let g' := (g + n / g) / 2
    if g' < g then newtonSqrtAux n fuel g' else g

/-- Integer square root via fueled Newton iteration. -/
def natSqrt (n : ℕ) : ℕ :=
  if n ≤ 1 then n else newtonSqrtAux n 64 (n / 2 + 1)

/-- Executable rational square-root approximation (4 decimal digits),
modelling the floating-point square root on the inputs that appear in
closed evaluations. -/
def sqrtApprox (q : ℚ) : ℚ :=
  if q ≤ 0 then 0 else (natSqrt (ratFloor (q * 10 ^ 8)).toNat : ℚ) / 10 ^ 4

/-! ### List statistics helpers (numpy/pandas aggregations) -/

/-- Sum of a list of rationals. -/
def sumQ (l : List ℚ) : ℚ := l.foldl (· + ·) 0

/-- Arithmetic mean (`pandas "mean"` aggregation); callers guard nonemptiness. -/
def meanQ (l : List ℚ) : ℚ := sumQ l / l.length

/-- Minimum (`pandas "min"` aggregation); callers guard nonemptiness. -/
def minQ : List ℚ → ℚ
  | [] => 0
  | x :: xs => xs.foldl min x

/-- Maximum (`pandas "max"` aggregation); callers guard nonemptiness. -/
def maxQ : List ℚ → ℚ
  | [] => 0
  | x :: xs => xs.foldl max x

/-- Sample variance with Bessel's correction (`ddof = 1`), the square of
what `pandas`' default `"std"` aggregation computes. -/
def sampleVariance (l : List ℚ) : ℚ :=
  sumQ (l.map fun x => (x - meanQ l) ^ 2) / ((l.length : ℚ) - 1)

/-- Population variance (divisor `n`), the square of the population
standard deviation named by the specification (§4.1 step 3). -/
def popVariance (l : List ℚ) : ℚ :=
  sumQ (l.map fun x => (x - meanQ l) ^ 2) / (l.length : ℚ)

/-- Ordinary-least-squares slope of the values against their positional
indices `0, 1, 2, …` (`np.polyfit(indices, x, 1)[0]`); callers guard
`2 ≤ length`. -/
def slopeOLS (ys : List ℚ) : ℚ :=
  let n : ℚ := ys.length
  let xs : List ℚ := (List.range ys.length).map fun i => (i : ℚ)
  let sx := sumQ xs
  let sy := sumQ ys
  let sxx := sumQ (xs.map fun x => x * x)
  let sxy := sumQ (List.zipWith (· * ·) xs ys)
  (n * sxy - sx * sy) / (n * sxx - sx * sx)

/-- `pandas.Series.median`: middle element of the sorted values for odd
length, average of the two middle elements for even length. -/
def medianQ (l : List ℚ) : ℚ :=
  let s := List.insertionSort (· ≤ ·) l
  let n := s.length
  if n = 0 then 0
  else if n % 2 = 1 then s.getD (n / 2) 0
  else (s.getD (n / 2 - 1) 0 + s.getD (n / 2) 0) / 2

/-! ### Data model (database rows in scope for `MLService`) -/

/-- A `Student` row (`models.py`): primary key `student_tz`, display name,
and the tenant (school) the row belongs to. -/
structure Student where
  student_tz : String
  student_name : String
  school_id : ℕ
deriving DecidableEq

/-- A `Grade` row (`models.py`): autoincrement `id` (the retrieval order
key used by `order_by(Grade.id)`), owner `student_tz`, numeric grade and
period, scoped to a school. -/
structure Grade where
  id : ℕ
  student_tz : String
  grade : ℚ
  period : String
  school_id : ℕ
deriving DecidableEq

/-- An `AttendanceRecord` row (`models.py`): per-period attendance and
behaviour counters, scoped to a school. -/
structure AttendanceRecord where
  student_tz : String
  period : String
  absence : ℤ
  absence_justified : ℤ
  late : ℤ
  disturbance : ℤ
  total_absences : ℤ
  total_negative_events : ℤ
  total_positive_events : ℤ
  school_id : ℕ
deriving DecidableEq

/-- A database state: the three tables the ML service reads. -/
structure Db where
  students : List Student
  grades : List Grade
  attendance : List AttendanceRecord

/-- `if period:` — the SQL filter is applied only when the Python value is
truthy, so `None` and the empty string both mean "no filter". -/
def periodMatches (filter? : Option String) (p : String) : Bool :=
  match filter? with
  | none => true
  | some f => if f = "" then true else p == f

/-- `select(Student).where(Student.school_id == self.school_id)`. -/
def schoolStudents (db : Db) (sid : ℕ) : List Student :=
  db.students.filter fun s => s.school_id == sid

/-- `select(Grade).where(school_id == sid).order_by(Grade.id)` plus the
optional period filter: the in-scope grade rows, ordered by `id`. -/
def inScopeGrades (db : Db) (sid : ℕ) (period : Option String) : List Grade :=
  List.insertionSort (fun g₁ g₂ => g₁.id ≤ g₂.id)
    (db.grades.filter fun g => g.school_id == sid && periodMatches period g.period)

/-- `select(AttendanceRecord).where(school_id == sid)` plus the optional
period filter. -/
def inScopeAttendance (db : Db) (sid : ℕ) (period : Option String) : List AttendanceRecord :=
  db.attendance.filter fun a => a.school_id == sid && periodMatches period a.period

/-! ### `student_map` (a Python dict comprehension)

`{s.student_tz: s.student_name for s in students}` keeps the key at its
first-insertion position and the last value written for it; its keys are
distinct by construction. -/

/-- One Python-dict assignment `d[k] = v` on an association list. -/
def dictUpsert (m : List (String × String)) (k v : String) : List (String × String) :=
  if m.any fun p => p.1 == k then m.map (fun p => if p.1 == k then (p.1, v) else p)
  else m ++ [(k, v)]

/-- `student_map`: association list from `student_tz` to `student_name`. -/
def studentMap (students : List Student) : List (String × String) :=
  students.foldl (fun m s => dictUpsert m s.student_tz s.student_name) []

/-! ### Feature extraction (`MLService._build_feature_dataframe`) -/

/-- One row of the feature dataframe: identity plus the 14 numeric
features, in the fixed `FEATURE_COLUMNS` order. -/
structure FeatureRow where
  student_tz : String
  student_name : String
  average_grade : ℚ
  min_grade : ℚ
  max_grade : ℚ
  grade_std : ℚ
  grade_trend_slope : ℚ
  num_subjects : ℚ
  failing_subjects : ℚ
  absence : ℚ
  absence_justified : ℚ
  late : ℚ
  disturbance : ℚ
  total_absences : ℚ
  total_negative_events : ℚ
  total_positive_events : ℚ
deriving DecidableEq

/-- Sum one integer attendance counter over a student's in-scope
attendance rows (the `adf.groupby("student_tz").sum()` aggregation; a
student with no rows sums to `0`, which is also what the `fillna`
defaults produce after the left merge). -/
def attSum (atts : List AttendanceRecord) (f : AttendanceRecord → ℤ) : ℚ :=
  ((atts.map f).foldl (· + ·) 0 : ℤ)

/-- Build the feature row of one student from their in-scope grade rows
(`gs`, in `Grade.id` order, nonempty at every call site) and attendance
rows, following `_build_feature_dataframe`:

* `average_grade`/`min_grade`/`max_grade`/`num_subjects` from the grade
  aggregation, `average_grade` rounded to 2 decimals at the end;
* `grade_std` is the pandas default `"std"` aggregation — the sample
  standard deviation (`ddof = 1`) — `NaN`-filled to `0` for a single
  grade, then rounded to 2 decimals;
* `grade_trend_slope` is `calc_slope` (OLS against positional index,
  `0.0` below 2 points) rounded to 4 decimals;
* `failing_subjects` counts grades strictly below
  `AT_RISK_GRADE_THRESHOLD`;
* the seven attendance features are per-student sums (0 when absent). -/
def mkFeatureRow (sqrtFn : ℚ → ℚ) (tz name : String) (gs : List Grade)
    (atts : List AttendanceRecord) : FeatureRow :=
  let vals := gs.map fun g => g.grade
  let n := vals.length
  { student_tz := tz
    student_name := name
    average_grade := roundQ 2 (meanQ vals)
    min_grade := minQ vals
    max_grade := maxQ vals
    grade_std := if n < 2 then 0 else roundQ 2 (sqrtFn (sampleVariance vals))
    grade_trend_slope := if n < 2 then 0 else roundQ 4 (slopeOLS vals)
    num_subjects := n
    failing_subjects := (vals.filter fun v => v < AT_RISK_GRADE_THRESHOLD).length
    absence := attSum atts fun a => a.absence
    absence_justified := attSum atts fun a => a.absence_justified
    late := attSum atts fun a => a.late
    disturbance := attSum atts fun a => a.disturbance
    total_absences := attSum atts fun a => a.total_absences
    total_negative_events := attSum atts fun a => a.total_negative_events
    total_positive_events := attSum atts fun a => a.total_positive_events }

/-- The feature row of one `student_map` entry, or `none` when the student
has no in-scope grade rows (the `dropna(subset=["average_grade"])` that
removes students absent from the grade aggregation). -/
def rowFor (sqrtFn : ℚ → ℚ) (db : Db) (sid : ℕ) (period : Option String)
    (p : String × String) : Option FeatureRow :=
  let gs := (inScopeGrades db sid period).filter fun g => g.student_tz == p.1
  if gs.isEmpty then none
  else some (mkFeatureRow sqrtFn p.1 p.2 gs
    ((inScopeAttendance db sid period).filter fun a => a.student_tz == p.1))

/-- Walk the `student_map` entries in order, keeping each survivor of the
`dropna` together with its positional index in the pre-`dropna` dataframe
(`pd.merge` resets the index to `0, 1, 2, …`; `dropna` keeps the
surviving labels, so gaps appear exactly where students were dropped). -/
def buildRowsAux (f : String × String → Option FeatureRow) :
    ℕ → List (String × String) → List (ℕ × FeatureRow)
  | _, [] => []
  | i, p :: ps =>
    match f p with
    | some r => (i, r) :: buildRowsAux f (i + 1) ps
    | none => buildRowsAux f (i + 1) ps

/-- `_build_feature_dataframe`: the per-student feature rows, labelled
with their pandas index labels. -/
def buildFeatureRows (sqrtFn : ℚ → ℚ) (db : Db) (sid : ℕ)
    (period : Option String) : List (ℕ × FeatureRow) :=
  buildRowsAux (rowFor sqrtFn db sid period) 0 (studentMap (schoolStudents db sid))

/-! ### Prediction (`predict_student`, `_compute_all_predictions`) -/

/-- `row[FEATURE_COLUMNS].values`: the 14 feature values in the fixed
column order the models are trained and scored on. -/
def featureVector (r : FeatureRow) : List ℚ :=
  [r.average_grade, r.min_grade, r.max_grade, r.grade_std, r.grade_trend_slope,
   r.num_subjects, r.failing_subjects, r.absence, r.absence_justified, r.late,
   r.disturbance, r.total_absences, r.total_negative_events, r.total_positive_events]

/-- The fitted dropout classifier, abstracted: `degenerate` records
whether `predict_proba` returns a single column (the classifier was
trained on a single-class label set), and `probPos` is its
probability-of-positive-class on a feature row otherwise. -/
structure Classifier where
  degenerate : Bool
  probPos : List ℚ → ℚ

/-- The probability of the positive class the service extracts from the
classifier: `0.0` in the degenerate single-column case, `proba[1]`
otherwise (both the single-student and the batch path). -/
def classifierProba (cm : Classifier) (x : List ℚ) : ℚ :=
  if cm.degenerate then 0 else cm.probPos x

/-- Risk-level bucketing shared by `predict_student` and
`_compute_all_predictions`: strictly above `HIGH_RISK_THRESHOLD` is
`"high"`, else strictly above `MEDIUM_RISK_THRESHOLD` is `"medium"`,
else `"low"`. -/
def riskLevelOf (dropout_risk : ℚ) : String :=
  if HIGH_RISK_THRESHOLD < dropout_risk then "high"
  else if MEDIUM_RISK_THRESHOLD < dropout_risk then "medium"
  else "low"

/-- A `PredictionResult`: the dict returned per student. -/
structure Prediction where
  student_tz : String
  student_name : String
  predicted_grade : ℚ
  dropout_risk : ℚ
  risk_level : String
  features : List ℚ
deriving DecidableEq

/-- `predict_student` error: the student has no feature row in scope. -/
inductive PredictError where
  | studentNotFound
deriving DecidableEq

/-- `MLService.predict_student` (models already loaded — the claims below
presuppose trained models are present): rebuild the feature rows, take
the first row matching `student_tz` or fail, score it with both models,
round, bucket the risk. -/
def predictStudent (sqrtFn : ℚ → ℚ) (gm : List ℚ → ℚ) (cm : Classifier)
    (db : Db) (sid : ℕ) (student_tz : String) (period : Option String) :
    Except PredictError Prediction :=
  let rows := buildFeatureRows sqrtFn db sid period
  match rows.find? fun ir => ir.2.student_tz == student_tz with
  | none => .error .studentNotFound
  | some ir =>
    let x := featureVector ir.2
    let dropout_risk := roundQ 4 (classifierProba cm x)
    .ok { student_tz := student_tz
          student_name := ir.2.student_name
          predicted_grade := roundQ 2 (gm x)
          dropout_risk := dropout_risk
          risk_level := riskLevelOf dropout_risk
          features := x }

/-- The prediction dict `_compute_all_predictions` assembles for one
feature row from the batch-model outputs `pg` (regressor) and `pp`
(positive-class probability) looked up for that row. -/
def mkPrediction (r : FeatureRow) (pg pp : ℚ) : Prediction :=
  let dropout_risk := roundQ 4 pp
  { student_tz := r.student_tz
    student_name := r.student_name
    predicted_grade := roundQ 2 pg
    dropout_risk := dropout_risk
    risk_level := riskLevelOf dropout_risk
    features := featureVector r }

/-- The `for i, row in df.iterrows()` loop of `_compute_all_predictions`:
`i` is the pandas index *label* of the row, but `predicted_grades[i]` and
`dropout_probas[i]` index *positionally* into the batch-model output
arrays; a label at or beyond the array length raises `IndexError`,
modelled as `none`. -/
def buildPreds (preds probas : List ℚ) : List (ℕ × FeatureRow) → Option (List Prediction)
  | [] => some []
  | ir :: rest =>
    match preds[ir.1]?, probas[ir.1]?, buildPreds preds probas rest with
    | some pg, some pp, some tail => some (mkPrediction ir.2 pg pp :: tail)
    | _, _, _ => none

/-- Descending order on `dropout_risk`
(`all_predictions.sort(key=..., reverse=True)`). -/
def riskDescOrder (p q : Prediction) : Prop := q.dropout_risk ≤ p.dropout_risk

instance : DecidableRel riskDescOrder := fun p q =>
  inferInstanceAs (Decidable (q.dropout_risk ≤ p.dropout_risk))

instance : IsTotal Prediction riskDescOrder :=
  ⟨fun p q => le_total q.dropout_risk p.dropout_risk⟩

instance : IsTrans Prediction riskDescOrder :=
  ⟨fun _ _ _ hab hbc => le_trans hbc hab⟩

/-- `MLService._compute_all_predictions` on a cache miss (a cache hit
returns a list this same computation produced earlier for the same model
version; `train` only ever deletes entries): score every feature row with
both models, assemble the per-row dicts, sort descending by
`dropout_risk`.  `none` models the `IndexError` raised when a dropped
student's index gap desynchronises `iterrows` labels from the positional
model-output arrays. -/
def computeAllPredictions (sqrtFn : ℚ → ℚ) (gm : List ℚ → ℚ) (cm : Classifier)
    (db : Db) (sid : ℕ) (period : Option String) : Option (List Prediction) :=
  let rows := buildFeatureRows sqrtFn db sid period
  if rows.isEmpty then some []
  else
    let xs := rows.map fun ir => featureVector ir.2
    let preds := xs.map gm
    let probas := xs.map (classifierProba cm)
    (buildPreds preds probas rows).map (List.insertionSort riskDescOrder)

/-- `MLService.predict_all`: the paginated slice of the sorted
whole-population predictions. -/
def predictAllPage (sqrtFn : ℚ → ℚ) (gm : List ℚ → ℚ) (cm : Classifier)
    (db : Db) (sid : ℕ) (period : Option String) (page page_size : ℕ) :
    Option (List Prediction) :=
  (computeAllPredictions sqrtFn gm cm db sid period).map fun l =>
    (l.drop ((page - 1) * page_size)).take page_size

/-! ### Training (`MLService.train`) -/

/-- `train` failure: fewer feature rows than `MIN_TRAINING_SAMPLES`
(`raise ValueError(f"Not enough data to train: only {len(df)} students
with grades found. …")` — the `InsufficientDataError` of the design,
carrying the actual row count). -/
inductive TrainError where
  | insufficientData (found : ℕ)
deriving DecidableEq

/-- The data a successful `train` run computes before fitting: the sample
count, the per-run medians, and the constructed binary dropout labels, in
feature-row order.  The fitted models and their cross-validated metrics
are floating-point scikit-learn artifacts and stay abstract. -/
structure TrainOutcome where
  samples : ℕ
  median_negative : ℚ
  median_absences : ℚ
  dropout_labels : List ℤ
deriving DecidableEq

/-- The pure data part of `MLService.train`: build the feature rows, gate
on `MIN_TRAINING_SAMPLES`, compute the two medians over the training
population and the weak dropout labels
`(average_grade < AT_RISK_GRADE_THRESHOLD) & ((total_negative_events >
median_negative) | (total_absences > median_absences))`. -/
def trainCore (sqrtFn : ℚ → ℚ) (db : Db) (sid : ℕ) (period : Option String) :
    Except TrainError TrainOutcome :=
  let rows := (buildFeatureRows sqrtFn db sid period).map fun ir => ir.2
  if rows.length < MIN_TRAINING_SAMPLES then
    .error (.insufficientData rows.length)
  else
    let median_negative := medianQ (rows.map fun r => r.total_negative_events)
    let median_absences := medianQ (rows.map fun r => r.total_absences)
    .ok { samples := rows.length
          median_negative := median_negative
          median_absences := median_absences
          dropout_labels := rows.map fun r =>
            if r.average_grade < AT_RISK_GRADE_THRESHOLD ∧
                (median_negative < r.total_negative_events ∨
                 median_absences < r.total_absences)
            then 1 else 0 }

/-! ### Process/filesystem state and `train`'s effects on it

`train` mutates two pieces of shared state: the module-level
`_prediction_cache` (it deletes every entry whose key's school component
is this school) and the per-school model directory (it overwrites
`grade_predictor.joblib`, then `dropout_classifier.joblib`, then
`model_meta.json`, by three separate in-place writes with no
temp-file-and-rename step).  Artifact contents are abstracted to version
tokens. -/

/-- The three on-disk artifacts of one school's model directory, as
version tokens (`0` = the pre-existing content). -/
structure ArtifactState where
  gradeModel : ℕ
  dropoutModel : ℕ
  meta : ℕ
deriving DecidableEq

/-- A prediction-cache key: `(str(school_id), period, trained_at)`. -/
structure CacheKey where
  school : ℕ
  period : Option String
  trained_at : Option ℕ
deriving DecidableEq

/-- Process-wide mutable state: the prediction cache and the model
directories of every school. -/
structure SysState where
  cache : List (CacheKey × List Prediction)
  files : ℕ → ArtifactState

/-- `keys_to_remove = [k for k in _prediction_cache if k[0] ==
str(self.school_id)]; for k in keys_to_remove: del _prediction_cache[k]`. -/
def clearCacheFor (sid : ℕ) (st : SysState) : SysState :=
  { st with cache := st.cache.filter fun e => e.1.school != sid }

/-- `joblib.dump(grade_model, self._grade_model_path)`. -/
def writeGradeFile (sid v : ℕ) (st : SysState) : SysState :=
  { st with files := fun s => if s = sid then { st.files s with gradeModel := v } else st.files s }

/-- `joblib.dump(dropout_model, self._dropout_model_path)`. -/
def writeDropoutFile (sid v : ℕ) (st : SysState) : SysState :=
  { st with files := fun s => if s = sid then { st.files s with dropoutModel := v } else st.files s }

/-- `json.dump(meta, f)` to `model_meta.json`. -/
def writeMetaFile (sid v : ℕ) (st : SysState) : SysState :=
  { st with files := fun s => if s = sid then { st.files s with meta := v } else st.files s }

/-- The final state of a `train` call: the cache is cleared for this
school first; if the sample gate fails (or either `fit` raises,
`fitFails`), nothing else happens; otherwise the three artifacts of this
school are overwritten in sequence with the new version `v`. -/
def trainRunState (sqrtFn : ℚ → ℚ) (db : Db) (sid : ℕ) (period : Option String)
    (v : ℕ) (fitFails : Bool) (st : SysState) : SysState :=
  let st1 := clearCacheFor sid st
  match trainCore sqrtFn db sid period with
  | .error _ => st1
  | .ok _ =>
    if fitFails then st1
    else writeMetaFile sid v (writeDropoutFile sid v (writeGradeFile sid v st1))

/-- Every state a concurrent reader (or a failure part-way through) can
observe during a `train` call, in program order: the initial state, the
state after the cache purge, and — when the gate and both fits succeed —
the state after each of the three sequential artifact writes. -/
def trainObservableStates (sqrtFn : ℚ → ℚ) (db : Db) (sid : ℕ)
    (period : Option String) (v : ℕ) (fitFails : Bool) (st : SysState) :
    List SysState :=
  let st1 := clearCacheFor sid st
  match trainCore sqrtFn db sid period with
  | .error _ => [st, st1]
  | .ok _ =>
    if fitFails then [st, st1]
    else
      let st2 := writeGradeFile sid v st1
      let st3 := writeDropoutFile sid v st2
      let st4 := writeMetaFile sid v st3
      [st, st1, st2, st3, st4]

/-! ### Concrete fixtures for closed evaluations -/

/-- A one-student database: Alice has a single grade of 90 and no
attendance rows. -/
def db1 : Db :=
  { students := [⟨"S1", "Alice", 0⟩]
    grades := [⟨1, "S1", 90, "P", 0⟩]
    attendance := [] }

/-- One student with exactly two grades, 90 and 80 — the input that
separates sample from population standard deviation. -/
def dbStd : Db :=
  { students := [⟨"S1", "Alice", 0⟩]
    grades := [⟨1, "S1", 90, "P", 0⟩, ⟨2, "S1", 80, "P", 0⟩]
    attendance := [] }

/-- Four eligible students (one grade each) — below the training gate. -/
def db4 : Db :=
  { students := [⟨"S1", "A", 0⟩, ⟨"S2", "B", 0⟩, ⟨"S3", "C", 0⟩, ⟨"S4", "D", 0⟩]
    grades := [⟨1, "S1", 90, "P", 0⟩, ⟨2, "S2", 80, "P", 0⟩,
               ⟨3, "S3", 70, "P", 0⟩, ⟨4, "S4", 60, "P", 0⟩]
    attendance := [] }

/-- Five eligible students (one grade each) — exactly at the training
gate.  The fifth is failing with above-median negative events, so both
dropout labels appear. -/
def db5 : Db :=
  { students := [⟨"S1", "A", 0⟩, ⟨"S2", "B", 0⟩, ⟨"S3", "C", 0⟩, ⟨"S4", "D", 0⟩,
                 ⟨"S5", "E", 0⟩]
    grades := [⟨1, "S1", 90, "P", 0⟩, ⟨2, "S2", 80, "P", 0⟩,
               ⟨3, "S3", 70, "P", 0⟩, ⟨4, "S4", 60, "P", 0⟩, ⟨5, "S5", 40, "P", 0⟩]
    attendance := [⟨"S5", "P", 6, 1, 2, 3, 5, 9, 0, 0⟩] }

/-- The regressor used in closed evaluations: a constant scorer. -/
def gmW : List ℚ → ℚ := fun _ => 50

/-- The classifier used in closed evaluations: non-degenerate, constant
positive-class probability 1/2. -/
def cmW : Classifier := ⟨false, fun _ => 1/2⟩

/-- An initial process state for closed evaluations: artifacts of every
school at version 0, cache holding one entry for school 0 and one for
school 1. -/
def stW : SysState :=
  { cache := [(⟨0, none, none⟩, []), (⟨1, none, some 7⟩, [])]
    files := fun _ => ⟨0, 0, 0⟩ }

/-! ### Helper lemmas: the `dropna` index labels -/
theorem buildRowsAux_mem_lb (f : String × String → Option FeatureRow)
    (ps : List (String × String)) :
    ∀ (i : ℕ) (x : ℕ × FeatureRow), x ∈ buildRowsAux f i ps → i ≤ x.1 := by
  induction ps with
  | nil => intro i x hx; simp [buildRowsAux] at hx
  | cons p ps ih =>
    intro i x hx
    cases hf : f p with
    | some r =>
      simp only [buildRowsAux, hf, List.mem_cons] at hx
      rcases hx with rfl | hx
      · exact le_refl _
      · exact le_trans (Nat.le_succ i) (ih (i + 1) x hx)
    | none =>
      simp only [buildRowsAux, hf] at hx
      exact le_trans (Nat.le_succ i) (ih (i + 1) x hx)

theorem buildRowsAux_pairwise (f : String × String → Option FeatureRow)
    (ps : List (String × String)) :
    ∀ (i : ℕ), (buildRowsAux f i ps).Pairwise fun a b => a.1 < b.1 := by
  induction ps with
  | nil => intro i; simp [buildRowsAux]
  | cons p ps ih =>
    intro i
    cases hf : f p with
    | some r =>
      simp only [buildRowsAux, hf]
      refine List.Pairwise.cons ?_ (ih (i + 1))
      intro b hb
      exact lt_of_lt_of_le (Nat.lt_succ_self i) (buildRowsAux_mem_lb f ps (i + 1) b hb)
    | none => simp only [buildRowsAux, hf]; exact ih (i + 1)

theorem buildRowsAux_mem_ub (f : String × String → Option FeatureRow)
    (ps : List (String × String)) :
    ∀ (i : ℕ) (x : ℕ × FeatureRow), x ∈ buildRowsAux f i ps → x.1 < i + ps.length := by
  induction ps with
  | nil => intro i x hx; simp [buildRowsAux] at hx
  | cons p ps ih =>
    intro i x hx
    have hlen : i + (p :: ps).length = (i + 1) + ps.length := by
      simp only [List.length_cons]; omega
    cases hf : f p with
    | some r =>
      simp only [buildRowsAux, hf, List.mem_cons] at hx
      rcases hx with rfl | hx
      · simp only [List.length_cons]; omega
      · rw [hlen]; exact ih (i + 1) x hx
    | none =>
      simp only [buildRowsAux, hf] at hx
      rw [hlen]; exact ih (i + 1) x hx

theorem buildRowsAux_mem_src (f : String × String → Option FeatureRow)
    (ps : List (String × String)) :
    ∀ (i : ℕ) (x : ℕ × FeatureRow), x ∈ buildRowsAux f i ps → ∃ p ∈ ps, f p = some x.2 := by
  induction ps with
  | nil => intro i x hx; simp [buildRowsAux] at hx
  | cons p ps ih =>
    intro i x hx
    cases hf : f p with
    | some r =>
      simp only [buildRowsAux, hf, List.mem_cons] at hx
      rcases hx with rfl | hx
      · exact ⟨p, List.mem_cons_self p ps, hf⟩
      · rcases ih (i + 1) x hx with ⟨q, hq, hfq⟩
        exact ⟨q, List.mem_cons_of_mem p hq, hfq⟩
    | none =>
      simp only [buildRowsAux, hf] at hx
      rcases ih (i + 1) x hx with ⟨q, hq, hfq⟩
      exact ⟨q, List.mem_cons_of_mem p hq, hfq⟩

theorem buildRowsAux_tz_sublist (f : String × String → Option FeatureRow)
    (hf : ∀ p r, f p = some r → r.student_tz = p.1)
    (ps : List (String × String)) :
    ∀ (i : ℕ),
      ((buildRowsAux f i ps).map fun x => x.2.student_tz).Sublist (ps.map fun p => p.1) := by
  induction ps with
  | nil => intro i; simp [buildRowsAux]
  | cons p ps ih =>
    intro i
    cases hfp : f p with
    | some r =>
      simp only [buildRowsAux, hfp, List.map_cons]
      rw [hf p r hfp]
      exact List.Sublist.cons₂ p.1 (ih (i + 1))
    | none =>
      simp only [buildRowsAux, hfp, List.map_cons]
      exact List.Sublist.cons p.1 (ih (i + 1))

theorem buildRowsAux_tz_mem (f : String × String → Option FeatureRow)
    (hf : ∀ p r, f p = some r → r.student_tz = p.1)
    (ps : List (String × String)) :
    ∀ (i : ℕ) (tz : String),
      (tz ∈ (buildRowsAux f i ps).map fun x => x.2.student_tz) ↔
        ∃ p ∈ ps, p.1 = tz ∧ (f p).isSome := by
  induction ps with
  | nil => intro i tz; simp [buildRowsAux]
  | cons p ps ih =>
    intro i tz
    cases hfp : f p with
    | some r =>
      simp only [buildRowsAux, hfp, List.map_cons]
      rw [hf p r hfp, List.mem_cons]
      constructor
      · rintro (h | h)
        · exact ⟨p, List.mem_cons_self p ps, h.symm, by simp [hfp]⟩
        · rcases (ih (i + 1) tz).mp h with ⟨q, hq, hq1, hq2⟩
          exact ⟨q, List.mem_cons_of_mem p hq, hq1, hq2⟩
      · rintro ⟨q, hq, hq1, hq2⟩
        rcases List.mem_cons.mp hq with rfl | hq
        · exact Or.inl hq1.symm
        · exact Or.inr ((ih (i + 1) tz).mpr ⟨q, hq, hq1, hq2⟩)
    | none =>
      simp only [buildRowsAux, hfp]
      rw [ih (i + 1) tz]
      constructor
      · rintro ⟨q, hq, hq1, hq2⟩
        exact ⟨q, List.mem_cons_of_mem p hq, hq1, hq2⟩
      · rintro ⟨q, hq, hq1, hq2⟩
        rcases List.mem_cons.mp hq with rfl | hq
        · rw [hfp] at hq2; simp at hq2
        · exact ⟨q, hq, hq1, hq2⟩

theorem dictUpsert_keys (m : List (String × String)) (k v : String) :
    (dictUpsert m k v).map (fun p => p.1) =
      if m.any (fun p => p.1 == k) then m.map fun p => p.1
      else (m.map fun p => p.1) ++ [k] := by
  by_cases h : (m.any fun p => p.1 == k) = true
  · rw [dictUpsert, if_pos h, if_pos h, List.map_map]
    apply List.map_congr_left
    intro p _
    by_cases hp : (p.1 == k) = true <;> simp [Function.comp, hp]
  · rw [dictUpsert, if_neg h, if_neg h]
    simp

theorem dictUpsert_keys_nodup (m : List (String × String)) (k v : String)
    (h : (m.map fun p => p.1).Nodup) : ((dictUpsert m k v).map fun p => p.1).Nodup := by
  rw [dictUpsert_keys]
  split
  · exact h
  · next hany =>
    rw [List.nodup_append]
    refine ⟨h, List.nodup_singleton k, ?_⟩
    intro a ha hk
    rcases List.mem_map.mp ha with ⟨p, hp, rfl⟩
    rcases List.mem_singleton.mp hk with rfl
    exact hany ((List.any_eq_true (l := m)).mpr ⟨p, hp, by simp⟩)

theorem dictUpsert_keys_mem (m : List (String × String)) (k v a : String) :
    (a ∈ (dictUpsert m k v).map fun p => p.1) ↔ (a ∈ m.map fun p => p.1) ∨ a = k := by
  rw [dictUpsert_keys]
  split
  · next hany =>
    constructor
    · exact Or.inl
    · rintro (h | rfl)
      · exact h
      · rcases List.any_eq_true.mp hany with ⟨p, hp, hpk⟩
        exact List.mem_map.mpr ⟨p, hp, by simpa using hpk⟩
  · simp

theorem studentMap_go_nodup (l : List Student) :
    ∀ (acc : List (String × String)), (acc.map fun p => p.1).Nodup →
      ((l.foldl (fun m s => dictUpsert m s.student_tz s.student_name) acc).map
        fun p => p.1).Nodup := by
  induction l with
  | nil => intro acc h; simpa using h
  | cons s l ih =>
    intro acc h
    simp only [List.foldl_cons]
    exact ih _ (dictUpsert_keys_nodup acc s.student_tz s.student_name h)

theorem studentMap_keys_nodup (l : List Student) :
    ((studentMap l).map fun p => p.1).Nodup :=
  studentMap_go_nodup l [] (by simp)

theorem studentMap_go_mem (l : List Student) :
    ∀ (acc : List (String × String)) (tz : String),
      (tz ∈ (l.foldl (fun m s => dictUpsert m s.student_tz s.student_name) acc).map
          fun p => p.1) ↔
        (tz ∈ acc.map fun p => p.1) ∨ ∃ s ∈ l, s.student_tz = tz := by
  induction l with
  | nil => intro acc tz; simp
  | cons s l ih =>
    intro acc tz
    simp only [List.foldl_cons]
    rw [ih _ tz, dictUpsert_keys_mem]
    constructor
    · rintro ((h | rfl) | ⟨t, ht, rfl⟩)
      · exact Or.inl h
      · exact Or.inr ⟨s, List.mem_cons_self s l, rfl⟩
      · exact Or.inr ⟨t, List.mem_cons_of_mem s ht, rfl⟩
    · rintro (h | ⟨t, ht, rfl⟩)
      · exact Or.inl (Or.inl h)
      · rcases List.mem_cons.mp ht with rfl | ht
        · exact Or.inl (Or.inr rfl)
        · exact Or.inr ⟨t, ht, rfl⟩

theorem studentMap_keys_mem (l : List Student) (tz : String) :
    (tz ∈ (studentMap l).map fun p => p.1) ↔ ∃ s ∈ l, s.student_tz = tz := by
  rw [studentMap, studentMap_go_mem]
  simp

theorem rowFor_tz (sqrtFn : ℚ → ℚ) (db : Db) (sid : ℕ) (period : Option String)
    (p : String × String) (r : FeatureRow)
    (h : rowFor sqrtFn db sid period p = some r) : r.student_tz = p.1 := by
  simp only [rowFor] at h
  split at h
  · simp at h
  · cases Option.some.inj h; rfl

theorem rowFor_inv (sqrtFn : ℚ → ℚ) (db : Db) (sid : ℕ) (period : Option String)
    (p : String × String) (r : FeatureRow)
    (h : rowFor sqrtFn db sid period p = some r) :
    r = mkFeatureRow sqrtFn p.1 p.2
        ((inScopeGrades db sid period).filter fun g => g.student_tz == p.1)
        ((inScopeAttendance db sid period).filter fun a => a.student_tz == p.1) ∧
      ((inScopeGrades db sid period).filter fun g => g.student_tz == p.1) ≠ [] := by
  simp only [rowFor] at h
  split at h
  · simp at h
  · next hne =>
    refine ⟨(Option.some.inj h).symm, ?_⟩
    simpa [List.isEmpty_iff] using hne

theorem rowFor_isSome (sqrtFn : ℚ → ℚ) (db : Db) (sid : ℕ) (period : Option String)
    (p : String × String) :
    (rowFor sqrtFn db sid period p).isSome ↔
      ((inScopeGrades db sid period).filter fun g => g.student_tz == p.1) ≠ [] := by
  simp only [rowFor]
  split
  · next he => simp [List.isEmpty_iff.mp he]
  · next he => simp [List.isEmpty_iff] at he ⊢; exact he

/-! ### Helper lemma: a strictly increasing list of naturals bounded by
its length enumerates positions `0, 1, 2, …` -/

theorem get_pairwise_lt_eq_index (l : List ℕ) (hp : l.Pairwise (· < ·))
    (hb : ∀ x ∈ l, x < l.length) :
    ∀ (i : ℕ) (h : i < l.length), l.get ⟨i, h⟩ = i := by
  have hgets : ∀ (a b : Fin l.length), a < b → l.get a < l.get b :=
    fun a b hab => List.pairwise_iff_get.mp hp a b hab
  have hlow : ∀ (i : ℕ) (h : i < l.length), i ≤ l.get ⟨i, h⟩ := by
    intro i
    induction i with
    | zero => intro h; exact Nat.zero_le _
    | succ k ihk =>
      intro h
      have hk : k < l.length := Nat.lt_of_succ_lt h
      have h1 := hgets ⟨k, hk⟩ ⟨k + 1, h⟩ (by exact Fin.mk_lt_mk.mpr (Nat.lt_succ_self k))
      have h2 := ihk hk
      omega
  have hchain : ∀ (d i : ℕ) (h : i + d < l.length) (hi : i < l.length),
      l.get ⟨i, hi⟩ + d ≤ l.get ⟨i + d, h⟩ := by
    intro d
    induction d with
    | zero => intro i h hi; simp
    | succ e ihe =>
      intro i h hi
      have h1 : i + e < l.length := by omega
      have h2 := ihe i h1 hi
      have h3 := hgets ⟨i + e, h1⟩ ⟨i + e + 1, by omega⟩
        (by exact Fin.mk_lt_mk.mpr (Nat.lt_succ_self _))
      have : l.get ⟨i + (e + 1), h⟩ = l.get ⟨i + e + 1, by omega⟩ := rfl
      omega
  intro i h
  have hne : l ≠ [] := by
    intro hnil; rw [hnil] at h; simp at h
  have hlast : i + (l.length - 1 - i) < l.length := by omega
  have hup := hchain (l.length - 1 - i) i hlast h
  have hmem : l.get ⟨i + (l.length - 1 - i), hlast⟩ ∈ l := List.get_mem l _ _
  have hbd := hb _ hmem
  have hlo := hlow i h
  omega

/-! ### Helper lemmas: the batch prediction loop -/

theorem buildPreds_ok_bound (preds probas : List ℚ) :
    ∀ (rows : List (ℕ × FeatureRow)) (l : List Prediction),
      buildPreds preds probas rows = some l → ∀ x ∈ rows, x.1 < preds.length := by
  intro rows
  induction rows with
  | nil => intro l _ x hx; simp at hx
  | cons ir rest ih =>
    intro l h x hx
    cases hp : preds[ir.1]? with
    | none => simp only [buildPreds, hp] at h; exact Option.noConfusion h
    | some pg =>
      cases hq : probas[ir.1]? with
      | none => simp only [buildPreds, hp, hq] at h; exact Option.noConfusion h
      | some pp =>
        cases hrec : buildPreds preds probas rest with
        | none => simp only [buildPreds, hp, hq, hrec] at h; exact Option.noConfusion h
        | some tail =>
          rcases List.mem_cons.mp hx with rfl | hx
          · exact (List.getElem?_eq_some.mp hp).1
          · exact ih tail hrec x hx

theorem buildPreds_eval (preds probas : List ℚ) (g₁ g₂ : FeatureRow → ℚ) :
    ∀ (rows : List (ℕ × FeatureRow)),
      (∀ x ∈ rows, preds[x.1]? = some (g₁ x.2) ∧ probas[x.1]? = some (g₂ x.2)) →
      buildPreds preds probas rows =
        some (rows.map fun x => mkPrediction x.2 (g₁ x.2) (g₂ x.2)) := by
  intro rows
  induction rows with
  | nil => intro _; rfl
  | cons ir rest ih =>
    intro hall
    have h1 := hall ir (List.mem_cons_self ir rest)
    have hrec := ih fun x hx => hall x (List.mem_cons_of_mem ir hx)
    simp only [buildPreds, h1.1, h1.2, hrec, List.map_cons]

/-- The prediction the batch path computes for one feature row when the
index arrays line up. -/
def canonicalPred (gm : List ℚ → ℚ) (cm : Classifier) (r : FeatureRow) : Prediction :=
  mkPrediction r (gm (featureVector r)) (classifierProba cm (featureVector r))

theorem computeAll_some_inv (sqrtFn : ℚ → ℚ) (gm : List ℚ → ℚ) (cm : Classifier)
    (db : Db) (sid : ℕ) (period : Option String) (l : List Prediction)
    (h : computeAllPredictions sqrtFn gm cm db sid period = some l) :
    l.Pairwise riskDescOrder ∧
      ∀ p ∈ l, ∃ ir ∈ buildFeatureRows sqrtFn db sid period,
        p = canonicalPred gm cm ir.2 := by
  rw [computeAllPredictions] at h
  split at h
  · cases Option.some.inj h
    exact ⟨List.Pairwise.nil, by simp⟩
  · rcases Option.map_eq_some'.mp h with ⟨l₀, hb, hsort⟩
    set rows := buildFeatureRows sqrtFn db sid period with hrowsdef
    set P : List ℚ := (rows.map fun ir => featureVector ir.2).map gm with hP
    set Q : List ℚ := (rows.map fun ir => featureVector ir.2).map (classifierProba cm) with hQ
    have hPlen : P.length = rows.length := by simp [hP]
    have hbound : ∀ x ∈ rows, x.1 < rows.length := by
      intro x hx
      have := buildPreds_ok_bound P Q rows l₀ hb x hx
      omega
    have hpairL : (rows.map fun x => x.1).Pairwise (· < ·) :=
      List.pairwise_map.mpr (buildRowsAux_pairwise _ _ 0)
    have hboundL : ∀ y ∈ rows.map fun x => x.1, y < (rows.map fun x => x.1).length := by
      intro y hy
      rcases List.mem_map.mp hy with ⟨x, hx, rfl⟩
      simpa using hbound x hx
    have hpos := get_pairwise_lt_eq_index (rows.map fun x => x.1) hpairL hboundL
    have hself : ∀ x ∈ rows, ∀ (hx1 : x.1 < rows.length), rows[x.1] = x := by
      intro x hx hx1
      rcases List.mem_iff_getElem.mp hx with ⟨j, hj, hgj⟩
      have hjL : j < (rows.map fun x => x.1).length := by simpa using hj
      have := hpos j hjL
      rw [List.get_eq_getElem, List.getElem_map] at this
      rw [hgj] at this
      subst this
      exact hgj
    have hall : ∀ x ∈ rows,
        P[x.1]? = some (gm (featureVector x.2)) ∧
        Q[x.1]? = some (classifierProba cm (featureVector x.2)) := by
      intro x hx
      have hx1 : x.1 < rows.length := hbound x hx
      have hrowsX : rows[x.1]? = some x := by
        rw [List.getElem?_eq_getElem hx1, hself x hx hx1]
      constructor
      · rw [hP, List.getElem?_map, List.getElem?_map, hrowsX]; rfl
      · rw [hQ, List.getElem?_map, List.getElem?_map, hrowsX]; rfl
    have heval := buildPreds_eval P Q
      (fun r => gm (featureVector r)) (fun r => classifierProba cm (featureVector r)) rows hall
    rw [hb] at heval
    cases Option.some.inj heval
    constructor
    · rw [← hsort]
      exact List.sorted_insertionSort riskDescOrder _
    · intro p hp
      rw [← hsort] at hp
      have hp₀ : p ∈ rows.map fun x =>
          mkPrediction x.2 (gm (featureVector x.2)) (classifierProba cm (featureVector x.2)) :=
        (List.perm_insertionSort riskDescOrder _).mem_iff.mp hp
      rcases List.mem_map.mp hp₀ with ⟨x, hx, rfl⟩
      exact ⟨x, hx, rfl⟩

theorem buildFeatureRows_tz_nodup (sqrtFn : ℚ → ℚ) (db : Db) (sid : ℕ)
    (period : Option String) :
    ((buildFeatureRows sqrtFn db sid period).map fun ir => ir.2.student_tz).Nodup := by
  have hsub := buildRowsAux_tz_sublist (rowFor sqrtFn db sid period)
    (fun p r h => rowFor_tz sqrtFn db sid period p r h) (studentMap (schoolStudents db sid)) 0
  exact hsub.nodup (studentMap_keys_nodup _)

theorem find?_eq_of_mem_nodup (rows : List (ℕ × FeatureRow))
    (hnd : (rows.map fun ir => ir.2.student_tz).Nodup) (x : ℕ × FeatureRow) (hx : x ∈ rows) :
    rows.find? (fun ir => ir.2.student_tz == x.2.student_tz) = some x := by
  induction rows with
  | nil => simp at hx
  | cons y rest ih =>
    rw [List.map_cons, List.nodup_cons] at hnd
    rcases List.mem_cons.mp hx with rfl | hx
    · exact List.find?_cons_of_pos _ (by simp)
    · have hne : (y.2.student_tz == x.2.student_tz) = false := by
        rw [beq_eq_false_iff_ne]
        intro heq
        exact hnd.1 (by rw [heq]; exact List.mem_map.mpr ⟨x, hx, rfl⟩)
      rw [List.find?_cons_of_neg _ (by simp [hne])]
      exact ih hnd.2 hx

theorem riskLevelOf_iff (dr : ℚ) :
    (riskLevelOf dr = "high" ↔ HIGH_RISK_THRESHOLD < dr) ∧
    (riskLevelOf dr = "medium" ↔ MEDIUM_RISK_THRESHOLD < dr ∧ dr ≤ HIGH_RISK_THRESHOLD) ∧
    (riskLevelOf dr = "low" ↔ dr ≤ MEDIUM_RISK_THRESHOLD) := by
  unfold riskLevelOf
  split
  · next h1 =>
    refine ⟨⟨fun _ => h1, fun _ => rfl⟩,
            ⟨fun heq => absurd heq (by decide), fun hc => absurd h1 (not_lt.mpr hc.2)⟩,
            ⟨fun heq => absurd heq (by decide),
             fun hle => absurd h1 (not_lt.mpr (le_trans hle (by decide)))⟩⟩
  · next h1 =>
    split
    · next h2 =>
      refine ⟨⟨fun heq => absurd heq (by decide), fun hgt => absurd hgt h1⟩,
              ⟨fun _ => ⟨h2, not_lt.mp h1⟩, fun _ => rfl⟩,
              ⟨fun heq => absurd heq (by decide), fun hle => absurd h2 (not_lt.mpr hle)⟩⟩
    · next h2 =>
      refine ⟨⟨fun heq => absurd heq (by decide),
               fun hgt => absurd (lt_trans (by decide) hgt) h2⟩,
              ⟨fun heq => absurd heq (by decide), fun hc => absurd hc.1 h2⟩,
              ⟨fun _ => not_lt.mp h2, fun _ => rfl⟩⟩

theorem predictStudent_at_canonical (sqrtFn : ℚ → ℚ) (gm : List ℚ → ℚ) (cm : Classifier)
    (db : Db) (sid : ℕ) (period : Option String) (ir : ℕ × FeatureRow)
    (hir : ir ∈ buildFeatureRows sqrtFn db sid period) :
    predictStudent sqrtFn gm cm db sid ir.2.student_tz period =
      .ok (canonicalPred gm cm ir.2) := by
  have hfind := find?_eq_of_mem_nodup _ (buildFeatureRows_tz_nodup sqrtFn db sid period) ir hir
  rw [predictStudent, hfind]
  rfl

theorem predictStudent_risk_eq (sqrtFn : ℚ → ℚ) (gm : List ℚ → ℚ) (cm : Classifier)
    (db : Db) (sid : ℕ) (tz : String) (period : Option String) (p : Prediction)
    (h : predictStudent sqrtFn gm cm db sid tz period = .ok p) :
    p.risk_level = riskLevelOf p.dropout_risk := by
  rw [predictStudent] at h
  cases hfind : (buildFeatureRows sqrtFn db sid period).find?
      (fun ir => ir.2.student_tz == tz) with
  | none => rw [hfind] at h; exact Except.noConfusion h
  | some ir => rw [hfind] at h; cases Except.ok.inj h; rfl

/-! ### The claims -/

/-- C1: for every database state (with the trained models abstracted as
deterministic row scorers) and every period filter, each entry of the
list `predict_all` computes is exactly the result `predict_student`
returns for that entry's `student_tz` and the same period: same
`predicted_grade`, `dropout_risk`, `risk_level` and 14-feature snapshot. -/
theorem predictAll_agrees_predictStudent (sqrtFn : ℚ → ℚ) (gm : List ℚ → ℚ)
    (cm : Classifier) (db : Db) (sid : ℕ) (period : Option String)
    (l : List Prediction) (p : Prediction)
    (hl : computeAllPredictions sqrtFn gm cm db sid period = some l) (hp : p ∈ l) :
    predictStudent sqrtFn gm cm db sid p.student_tz period = .ok p := by
  rcases (computeAll_some_inv sqrtFn gm cm db sid period l hl).2 p hp with ⟨ir, hir, rfl⟩
  exact predictStudent_at_canonical sqrtFn gm cm db sid period ir hir

/-- C1 witness: on a concrete one-student database both entry points
produce the same prediction record. -/
theorem predictAll_agrees_predictStudent_witness :
    predictStudent sqrtApprox gmW cmW db1 0
        (Prediction.mk "S1" "Alice" 50 (1/2) "medium"
          [90, 90, 90, 0, 0, 1, 0, 0, 0, 0, 0, 0, 0, 0]).student_tz none =
      .ok (Prediction.mk "S1" "Alice" 50 (1/2) "medium"
          [90, 90, 90, 0, 0, 1, 0, 0, 0, 0, 0, 0, 0, 0]) :=
  predictAll_agrees_predictStudent sqrtApprox gmW cmW db1 0 none
    [Prediction.mk "S1" "Alice" 50 (1/2) "medium"
      [90, 90, 90, 0, 0, 1, 0, 0, 0, 0, 0, 0, 0, 0]]
    (Prediction.mk "S1" "Alice" 50 (1/2) "medium"
      [90, 90, 90, 0, 0, 1, 0, 0, 0, 0, 0, 0, 0, 0])
    (by decide) (by decide)

/-- C8: every list `predict_all` computes is sorted non-increasing by
`dropout_risk` — every adjacent (indeed every ordered) pair satisfies
`earlier.dropout_risk ≥ later.dropout_risk` — and so is every paginated
slice of it. -/
theorem predictAll_sorted_desc (sqrtFn : ℚ → ℚ) (gm : List ℚ → ℚ) (cm : Classifier)
    (db : Db) (sid : ℕ) (period : Option String) :
    (∀ l : List Prediction, computeAllPredictions sqrtFn gm cm db sid period = some l →
      l.Pairwise fun a b => b.dropout_risk ≤ a.dropout_risk) ∧
    (∀ (page page_size : ℕ) (l' : List Prediction),
      predictAllPage sqrtFn gm cm db sid period page page_size = some l' →
      l'.Pairwise fun a b => b.dropout_risk ≤ a.dropout_risk) := by
  constructor
  · intro l hl
    exact (computeAll_some_inv sqrtFn gm cm db sid period l hl).1
  · intro page page_size l' hl'
    rcases Option.map_eq_some'.mp hl' with ⟨l, hl, hslice⟩
    have hsorted := (computeAll_some_inv sqrtFn gm cm db sid period l hl).1
    rw [← hslice]
    exact List.Pairwise.sublist
      (List.Sublist.trans (List.take_sublist _ _) (List.drop_sublist _ _)) hsorted

/-- C8 witness: the sortedness theorem applied to a concrete run. -/
theorem predictAll_sorted_desc_witness :
    List.Pairwise (fun a b => b.dropout_risk ≤ a.dropout_risk)
      [Prediction.mk "S1" "Alice" 50 (1/2) "medium"
        [90, 90, 90, 0, 0, 1, 0, 0, 0, 0, 0, 0, 0, 0]] :=
  (predictAll_sorted_desc sqrtApprox gmW cmW db1 0 none).1
    [Prediction.mk "S1" "Alice" 50 (1/2) "medium"
      [90, 90, 90, 0, 0, 1, 0, 0, 0, 0, 0, 0, 0, 0]]
    (by decide)

/-- C7 counterexample: a classifier whose positive-class probability is
exactly 0.3 yields a prediction with `risk_level = "low"`, not
`"medium"` as the claim states — `0.3 > MEDIUM_RISK_THRESHOLD` is false,
so the exclusive lower bound sends exactly 0.3 to the `"low"` bucket. -/
theorem risk_level_boundary_counterexample :
    predictStudent sqrtApprox gmW (Classifier.mk false fun _ => 3/10) db1 0 "S1" none =
      .ok (Prediction.mk "S1" "Alice" 50 (3/10) "low"
        [90, 90, 90, 0, 0, 1, 0, 0, 0, 0, 0, 0, 0, 0]) ∧
    riskLevelOf MEDIUM_RISK_THRESHOLD = "low" ∧ ("low" : String) ≠ "medium" := by decide

/-- C7 as amended: for every prediction either entry point produces, the
risk level is determined from `dropout_risk` by exclusive lower bounds —
`"high"` iff strictly above 0.7, `"medium"` iff in (0.3, 0.7], `"low"`
iff at most 0.3; in particular exactly 0.7 maps to `"medium"` and
exactly 0.3 maps to `"low"` (not `"medium"`). -/
theorem risk_level_boundaries :
    (∀ (sqrtFn : ℚ → ℚ) (gm : List ℚ → ℚ) (cm : Classifier) (db : Db) (sid : ℕ)
        (tz : String) (period : Option String) (p : Prediction),
      predictStudent sqrtFn gm cm db sid tz period = .ok p →
        ((p.risk_level = "high" ↔ HIGH_RISK_THRESHOLD < p.dropout_risk) ∧
         (p.risk_level = "medium" ↔
           MEDIUM_RISK_THRESHOLD < p.dropout_risk ∧ p.dropout_risk ≤ HIGH_RISK_THRESHOLD) ∧
         (p.risk_level = "low" ↔ p.dropout_risk ≤ MEDIUM_RISK_THRESHOLD))) ∧
    (∀ (sqrtFn : ℚ → ℚ) (gm : List ℚ → ℚ) (cm : Classifier) (db : Db) (sid : ℕ)
        (period : Option String) (l : List Prediction) (p : Prediction),
      computeAllPredictions sqrtFn gm cm db sid period = some l → p ∈ l →
        ((p.risk_level = "high" ↔ HIGH_RISK_THRESHOLD < p.dropout_risk) ∧
         (p.risk_level = "medium" ↔
           MEDIUM_RISK_THRESHOLD < p.dropout_risk ∧ p.dropout_risk ≤ HIGH_RISK_THRESHOLD) ∧
         (p.risk_level = "low" ↔ p.dropout_risk ≤ MEDIUM_RISK_THRESHOLD))) ∧
    riskLevelOf HIGH_RISK_THRESHOLD = "medium" ∧
    riskLevelOf MEDIUM_RISK_THRESHOLD = "low" := by
  refine ⟨?_, ?_, by decide, by decide⟩
  · intro sqrtFn gm cm db sid tz period p h
    rw [predictStudent_risk_eq sqrtFn gm cm db sid tz period p h]
    exact riskLevelOf_iff p.dropout_risk
  · intro sqrtFn gm cm db sid period l p hl hp
    rcases (computeAll_some_inv sqrtFn gm cm db sid period l hl).2 p hp with ⟨ir, _, rfl⟩
    have : (canonicalPred gm cm ir.2).risk_level =
        riskLevelOf (canonicalPred gm cm ir.2).dropout_risk := rfl
    rw [this]
    exact riskLevelOf_iff _

/-- C7 witness: the boundary theorem applied to a concrete
`predict_student` run whose dropout risk is 1/2. -/
theorem risk_level_boundaries_witness :
    ((Prediction.mk "S1" "Alice" 50 (1/2) "medium"
        [90, 90, 90, 0, 0, 1, 0, 0, 0, 0, 0, 0, 0, 0]).risk_level = "high" ↔
      HIGH_RISK_THRESHOLD <
        (Prediction.mk "S1" "Alice" 50 (1/2) "medium"
          [90, 90, 90, 0, 0, 1, 0, 0, 0, 0, 0, 0, 0, 0]).dropout_risk) ∧
    ((Prediction.mk "S1" "Alice" 50 (1/2) "medium"
        [90, 90, 90, 0, 0, 1, 0, 0, 0, 0, 0, 0, 0, 0]).risk_level = "medium" ↔
      MEDIUM_RISK_THRESHOLD <
        (Prediction.mk "S1" "Alice" 50 (1/2) "medium"
          [90, 90, 90, 0, 0, 1, 0, 0, 0, 0, 0, 0, 0, 0]).dropout_risk ∧
        (Prediction.mk "S1" "Alice" 50 (1/2) "medium"
          [90, 90, 90, 0, 0, 1, 0, 0, 0, 0, 0, 0, 0, 0]).dropout_risk ≤
          HIGH_RISK_THRESHOLD) ∧
    ((Prediction.mk "S1" "Alice" 50 (1/2) "medium"
        [90, 90, 90, 0, 0, 1, 0, 0, 0, 0, 0, 0, 0, 0]).risk_level = "low" ↔
      (Prediction.mk "S1" "Alice" 50 (1/2) "medium"
        [90, 90, 90, 0, 0, 1, 0, 0, 0, 0, 0, 0, 0, 0]).dropout_risk ≤
        MEDIUM_RISK_THRESHOLD) :=
  risk_level_boundaries.1 sqrtApprox gmW cmW db1 0 "S1" none
    (Prediction.mk "S1" "Alice" 50 (1/2) "medium"
      [90, 90, 90, 0, 0, 1, 0, 0, 0, 0, 0, 0, 0, 0])
    (by decide)

theorem rows_tz_mem_iff (sqrtFn : ℚ → ℚ) (db : Db) (sid : ℕ) (period : Option String)
    (tz : String) :
    (tz ∈ (buildFeatureRows sqrtFn db sid period).map fun ir => ir.2.student_tz) ↔
      (∃ s ∈ schoolStudents db sid, s.student_tz = tz) ∧
      (∃ g ∈ inScopeGrades db sid period, g.student_tz = tz) := by
  rw [buildFeatureRows, buildRowsAux_tz_mem (rowFor sqrtFn db sid period)
    (fun p r h => rowFor_tz sqrtFn db sid period p r h) (studentMap (schoolStudents db sid)) 0 tz]
  constructor
  · rintro ⟨p, hp, rfl, hsome⟩
    refine ⟨(studentMap_keys_mem _ p.1).mp (List.mem_map.mpr ⟨p, hp, rfl⟩), ?_⟩
    have hne := (rowFor_isSome sqrtFn db sid period p).mp hsome
    rcases List.exists_mem_of_ne_nil _ hne with ⟨g, hg⟩
    have hgm := List.mem_filter.mp hg
    exact ⟨g, hgm.1, by simpa using hgm.2⟩
  · rintro ⟨hstu, hgr⟩
    have hkey : tz ∈ (studentMap (schoolStudents db sid)).map fun p => p.1 :=
      (studentMap_keys_mem _ tz).mpr hstu
    rcases List.mem_map.mp hkey with ⟨p, hp, hptz⟩
    refine ⟨p, hp, hptz, ?_⟩
    rw [rowFor_isSome]
    rcases hgr with ⟨g, hg, hgtz⟩
    apply List.ne_nil_of_mem (a := g)
    exact List.mem_filter.mpr ⟨hg, by rw [hptz]; simpa using hgtz⟩

/-- C2: the feature matrix contains exactly one row per student of the
school with at least one grade record in scope — the row count for a
`student_tz` is 1 when such a student and such a grade exist and 0
otherwise — and consequently every entry of the `predict_all` output
belongs to a student of the school with at least one in-scope grade
record. -/
theorem featureRows_one_per_graded_student (sqrtFn : ℚ → ℚ) (gm : List ℚ → ℚ)
    (cm : Classifier) (db : Db) (sid : ℕ) (period : Option String) (tz : String) :
    ((buildFeatureRows sqrtFn db sid period).countP (fun ir => ir.2.student_tz == tz) =
      if (∃ s ∈ schoolStudents db sid, s.student_tz = tz) ∧
          (∃ g ∈ inScopeGrades db sid period, g.student_tz = tz)
      then 1 else 0) ∧
    (∀ (l : List Prediction) (p : Prediction),
      computeAllPredictions sqrtFn gm cm db sid period = some l → p ∈ l →
        (∃ s ∈ schoolStudents db sid, s.student_tz = p.student_tz) ∧
        (∃ g ∈ inScopeGrades db sid period, g.student_tz = p.student_tz)) := by
  constructor
  · have hcnt : (buildFeatureRows sqrtFn db sid period).countP
        (fun ir => ir.2.student_tz == tz) =
        ((buildFeatureRows sqrtFn db sid period).map fun ir => ir.2.student_tz).countP
          (fun s => s == tz) := by
      rw [List.countP_map]; rfl
    rw [hcnt]
    have hnd := buildFeatureRows_tz_nodup sqrtFn db sid period
    by_cases hmem : tz ∈ (buildFeatureRows sqrtFn db sid period).map fun ir => ir.2.student_tz
    · rw [if_pos ((rows_tz_mem_iff sqrtFn db sid period tz).mp hmem)]
      exact List.count_eq_one_of_mem hnd hmem
    · rw [if_neg fun hc => hmem ((rows_tz_mem_iff sqrtFn db sid period tz).mpr hc)]
      exact List.count_eq_zero_of_not_mem hmem
  · intro l p hl hp
    rcases (computeAll_some_inv sqrtFn gm cm db sid period l hl).2 p hp with ⟨ir, hir, rfl⟩
    have htzmem : ir.2.student_tz ∈
        (buildFeatureRows sqrtFn db sid period).map fun x => x.2.student_tz :=
      List.mem_map.mpr ⟨ir, hir, rfl⟩
    exact (rows_tz_mem_iff sqrtFn db sid period ir.2.student_tz).mp htzmem

/-- C2 witness: on the concrete one-student database the count is 1 for
the graded student and 0 for an absent one. -/
theorem featureRows_one_per_graded_student_witness :
    ((buildFeatureRows sqrtApprox db1 0 none).countP (fun ir => ir.2.student_tz == "S1") =
      if (∃ s ∈ schoolStudents db1 0, s.student_tz = "S1") ∧
          (∃ g ∈ inScopeGrades db1 0 none, g.student_tz = "S1")
      then 1 else 0) ∧
    ((buildFeatureRows sqrtApprox db1 0 none).countP (fun ir => ir.2.student_tz == "S9") =
      if (∃ s ∈ schoolStudents db1 0, s.student_tz = "S9") ∧
          (∃ g ∈ inScopeGrades db1 0 none, g.student_tz = "S9")
      then 1 else 0) :=
  ⟨(featureRows_one_per_graded_student sqrtApprox gmW cmW db1 0 none "S1").1,
   (featureRows_one_per_graded_student sqrtApprox gmW cmW db1 0 none "S9").1⟩

/-- C4 counterexample: a student with the two grades 90 and 80.  Their
population standard deviation is exactly 5 (`5 ≥ 0` and `5²` is the
population variance of `[90, 80]`), so the claim demands
`grade_std = round2 5 = 5.0`; the pipeline instead produces 7.07, the
rounded *sample* standard deviation (`√50 ≈ 7.071`, pandas `std` with
`ddof = 1`). -/
theorem gradeStd_population_counterexample :
    ((buildFeatureRows sqrtApprox dbStd 0 none).map fun ir => ir.2.grade_std) = [707/100] ∧
    (((inScopeGrades dbStd 0 none).filter fun g => g.student_tz == "S1").map fun g => g.grade)
      = [90, 80] ∧
    popVariance [(90 : ℚ), 80] = 5 ^ 2 ∧ ((0 : ℚ) ≤ 5) ∧ roundQ 2 5 = 5 ∧
    ((707 : ℚ) / 100) ≠ 5 := by decide

/-- C4 as amended: for every student with at least two grade records in
scope, `grade_std` equals the *sample* standard deviation of the
student's grade values — square root (the numeric library's, modelled by
`sqrtFn`) of the Bessel-corrected variance with divisor `n - 1`, the
pandas `std` default — rounded to 2 decimal places (not the population
standard deviation). -/
theorem gradeStd_is_sample_std (sqrtFn : ℚ → ℚ) (db : Db) (sid : ℕ)
    (period : Option String) (i : ℕ) (r : FeatureRow)
    (hmem : (i, r) ∈ buildFeatureRows sqrtFn db sid period)
    (h2 : 2 ≤ ((inScopeGrades db sid period).filter
      fun g => g.student_tz == r.student_tz).length) :
    r.grade_std = roundQ 2 (sqrtFn (sampleVariance
      (((inScopeGrades db sid period).filter
        fun g => g.student_tz == r.student_tz).map fun g => g.grade))) := by
  rcases buildRowsAux_mem_src _ _ 0 (i, r) hmem with ⟨p, _, hfp⟩
  have htz : r.student_tz = p.1 := rowFor_tz sqrtFn db sid period p (i, r).2 hfp
  have heq : r = mkFeatureRow sqrtFn p.1 p.2
      ((inScopeGrades db sid period).filter fun g => g.student_tz == p.1)
      ((inScopeAttendance db sid period).filter fun a => a.student_tz == p.1) :=
    (rowFor_inv sqrtFn db sid period p (i, r).2 hfp).1
  rw [htz] at h2 ⊢
  rw [heq]
  simp only [mkFeatureRow]
  rw [if_neg]
  simp only [List.length_map]
  omega

/-- C4 amended-claim witness: the two-grade student of `dbStd`. -/
theorem gradeStd_is_sample_std_witness :
    (2 ≤ ((inScopeGrades dbStd 0 none).filter
      fun g => g.student_tz ==
        (FeatureRow.mk "S1" "Alice" 85 80 90 (707/100) (-10) 2 0 0 0 0 0 0 0 0).student_tz).length) ∧
    (FeatureRow.mk "S1" "Alice" 85 80 90 (707/100) (-10) 2 0 0 0 0 0 0 0 0).grade_std =
      roundQ 2 (sqrtApprox (sampleVariance
        (((inScopeGrades dbStd 0 none).filter
          fun g => g.student_tz ==
            (FeatureRow.mk "S1" "Alice" 85 80 90 (707/100) (-10) 2 0 0 0 0 0 0 0 0).student_tz).map
          fun g => g.grade))) :=
  ⟨by decide,
   gradeStd_is_sample_std sqrtApprox dbStd 0 none 0
     (FeatureRow.mk "S1" "Alice" 85 80 90 (707/100) (-10) 2 0 0 0 0 0 0 0 0)
     (by decide) (by decide)⟩

/-- C9: degenerate inputs yield defined zero defaults.  Every feature row
of a student with no in-scope attendance rows has all seven
attendance-derived features equal to 0, and every feature row of a
student with exactly one in-scope grade record has
`grade_std = 0` and `grade_trend_slope = 0`. -/
theorem degenerate_zero_defaults (sqrtFn : ℚ → ℚ) (db : Db) (sid : ℕ)
    (period : Option String) (i : ℕ) (r : FeatureRow)
    (hmem : (i, r) ∈ buildFeatureRows sqrtFn db sid period) :
    (((inScopeAttendance db sid period).filter fun a => a.student_tz == r.student_tz) = [] →
      r.absence = 0 ∧ r.absence_justified = 0 ∧ r.late = 0 ∧ r.disturbance = 0 ∧
      r.total_absences = 0 ∧ r.total_negative_events = 0 ∧ r.total_positive_events = 0) ∧
    ((((inScopeGrades db sid period).filter fun g => g.student_tz == r.student_tz).length = 1) →
      r.grade_std = 0 ∧ r.grade_trend_slope = 0) := by
  rcases buildRowsAux_mem_src _ _ 0 (i, r) hmem with ⟨p, _, hfp⟩
  have htz : r.student_tz = p.1 := rowFor_tz sqrtFn db sid period p (i, r).2 hfp
  have heq : r = mkFeatureRow sqrtFn p.1 p.2
      ((inScopeGrades db sid period).filter fun g => g.student_tz == p.1)
      ((inScopeAttendance db sid period).filter fun a => a.student_tz == p.1) :=
    (rowFor_inv sqrtFn db sid period p (i, r).2 hfp).1
  rw [htz, heq]
  constructor
  · intro hatt
    simp only [mkFeatureRow] at hatt ⊢
    rw [hatt]
    exact ⟨rfl, rfl, rfl, rfl, rfl, rfl, rfl⟩
  · intro hone
    simp only [mkFeatureRow] at hone ⊢
    have hlen : (((inScopeGrades db sid period).filter
        fun g => g.student_tz == p.1).map fun g => g.grade).length = 1 := by
      simpa using hone
    rw [if_pos (by omega), if_pos (by omega)]
    exact ⟨rfl, rfl⟩

/-- C9 witness: the one-grade no-attendance student of `db1`. -/
theorem degenerate_zero_defaults_witness :
    ((FeatureRow.mk "S1" "Alice" 90 90 90 0 0 1 0 0 0 0 0 0 0 0).absence = 0 ∧
     (FeatureRow.mk "S1" "Alice" 90 90 90 0 0 1 0 0 0 0 0 0 0 0).absence_justified = 0 ∧
     (FeatureRow.mk "S1" "Alice" 90 90 90 0 0 1 0 0 0 0 0 0 0 0).late = 0 ∧
     (FeatureRow.mk "S1" "Alice" 90 90 90 0 0 1 0 0 0 0 0 0 0 0).disturbance = 0 ∧
     (FeatureRow.mk "S1" "Alice" 90 90 90 0 0 1 0 0 0 0 0 0 0 0).total_absences = 0 ∧
     (FeatureRow.mk "S1" "Alice" 90 90 90 0 0 1 0 0 0 0 0 0 0 0).total_negative_events = 0 ∧
     (FeatureRow.mk "S1" "Alice" 90 90 90 0 0 1 0 0 0 0 0 0 0 0).total_positive_events = 0) ∧
    ((FeatureRow.mk "S1" "Alice" 90 90 90 0 0 1 0 0 0 0 0 0 0 0).grade_std = 0 ∧
     (FeatureRow.mk "S1" "Alice" 90 90 90 0 0 1 0 0 0 0 0 0 0 0).grade_trend_slope = 0) :=
  ⟨(degenerate_zero_defaults sqrtApprox db1 0 none 0
      (FeatureRow.mk "S1" "Alice" 90 90 90 0 0 1 0 0 0 0 0 0 0 0) (by decide)).1 (by decide),
   (degenerate_zero_defaults sqrtApprox db1 0 none 0
      (FeatureRow.mk "S1" "Alice" 90 90 90 0 0 1 0 0 0 0 0 0 0 0) (by decide)).2 (by decide)⟩

/-- C5: in every successful training run the binary dropout label of the
`i`-th feature row is 1 exactly when `average_grade` is strictly below
`AT_RISK_GRADE_THRESHOLD` and (`total_negative_events` strictly exceeds
the median of `total_negative_events` over all rows of the run or
`total_absences` strictly exceeds the median of `total_absences` over
all rows of the run); otherwise it is 0. -/
theorem dropout_label_iff (sqrtFn : ℚ → ℚ) (db : Db) (sid : ℕ)
    (period : Option String) (o : TrainOutcome)
    (h : trainCore sqrtFn db sid period = .ok o) :
    o.dropout_labels.length = (buildFeatureRows sqrtFn db sid period).length ∧
    ∀ (i : ℕ) (r : FeatureRow) (lab : ℤ),
      ((buildFeatureRows sqrtFn db sid period).map fun ir => ir.2)[i]? = some r →
      o.dropout_labels[i]? = some lab →
      ((lab = 1 ↔
        (r.average_grade < AT_RISK_GRADE_THRESHOLD ∧
          (medianQ (((buildFeatureRows sqrtFn db sid period).map fun ir => ir.2).map
              fun r => r.total_negative_events) < r.total_negative_events ∨
           medianQ (((buildFeatureRows sqrtFn db sid period).map fun ir => ir.2).map
              fun r => r.total_absences) < r.total_absences))) ∧
       (lab = 0 ↔ ¬(r.average_grade < AT_RISK_GRADE_THRESHOLD ∧
          (medianQ (((buildFeatureRows sqrtFn db sid period).map fun ir => ir.2).map
              fun r => r.total_negative_events) < r.total_negative_events ∨
           medianQ (((buildFeatureRows sqrtFn db sid period).map fun ir => ir.2).map
              fun r => r.total_absences) < r.total_absences)))) := by
  rw [trainCore] at h
  split at h
  · exact Except.noConfusion h
  · cases Except.ok.inj h
    constructor
    · simp
    · intro i r lab hr hlab
      rw [List.getElem?_map] at hlab
      rw [hr] at hlab
      have hlabeq : lab = (if r.average_grade < AT_RISK_GRADE_THRESHOLD ∧
          (medianQ (((buildFeatureRows sqrtFn db sid period).map fun ir => ir.2).map
              fun r => r.total_negative_events) < r.total_negative_events ∨
           medianQ (((buildFeatureRows sqrtFn db sid period).map fun ir => ir.2).map
              fun r => r.total_absences) < r.total_absences)
          then (1 : ℤ) else 0) := (Option.some.inj hlab).symm
      rw [hlabeq]
      split
      · next hc => exact ⟨⟨fun _ => hc, fun _ => rfl⟩,
          ⟨fun h01 => absurd h01 (by decide), fun hnc => absurd hc hnc⟩⟩
      · next hc => exact ⟨⟨fun h01 => absurd h01 (by decide), fun hcc => absurd hcc hc⟩,
          ⟨fun _ => hc, fun _ => rfl⟩⟩

/-- C5 witness: the concrete five-student run of `db5`, whose labels are
`[0, 0, 0, 0, 1]`. -/
theorem dropout_label_iff_witness :
    trainCore sqrtApprox db5 0 none =
      .ok (TrainOutcome.mk 5 0 0 [0, 0, 0, 0, 1]) ∧
    (TrainOutcome.mk 5 0 0 [0, 0, 0, 0, 1]).dropout_labels.length =
      (buildFeatureRows sqrtApprox db5 0 none).length :=
  ⟨by decide,
   (dropout_label_iff sqrtApprox db5 0 none (TrainOutcome.mk 5 0 0 [0, 0, 0, 0, 1])
     (by decide)).1⟩

/-- C6: `train` fails with `InsufficientDataError` carrying the actual
row count exactly when the feature matrix has fewer than
`MIN_TRAINING_SAMPLES = 5` rows; concretely, a population of 4 eligible
students fails with the error carrying 4, and a population of exactly 5
succeeds and returns the training outcome with `samples = 5`. -/
theorem train_gate_iff :
    (∀ (sqrtFn : ℚ → ℚ) (db : Db) (sid : ℕ) (period : Option String) (n : ℕ),
      trainCore sqrtFn db sid period = .error (.insufficientData n) ↔
        (n = (buildFeatureRows sqrtFn db sid period).length ∧ n < MIN_TRAINING_SAMPLES)) ∧
    trainCore sqrtApprox db4 0 none = .error (.insufficientData 4) ∧
    (∃ o : TrainOutcome, trainCore sqrtApprox db5 0 none = .ok o ∧ o.samples = 5) := by
  refine ⟨?_, by decide, ⟨TrainOutcome.mk 5 0 0 [0, 0, 0, 0, 1], by decide, rfl⟩⟩
  intro sqrtFn db sid period n
  rw [trainCore]
  split
  · next hlt =>
    constructor
    · intro h
      have hn := TrainError.insufficientData.inj (Except.error.inj h)
      refine ⟨by rw [← hn]; simp, ?_⟩
      rw [← hn]
      simpa using hlt
    · rintro ⟨rfl, _⟩
      simp
  · next hge =>
    constructor
    · intro h; exact Except.noConfusion h
    · rintro ⟨rfl, hlt⟩
      exact absurd (by simpa using hlt) hge

/-- C3: evaluation of the failing scenario.  On a concrete successful
`train` run (5 eligible students, old artifacts at version 0, new
version 1) the observable state sequence of the school's artifact
directory is `⟨0,0,0⟩, ⟨0,0,0⟩, ⟨1,0,0⟩, ⟨1,1,0⟩, ⟨1,1,1⟩`: after the
first `joblib.dump` a reader (or a failure before the second dump)
observes `⟨1,0,0⟩` — the new grade model paired with the old dropout
model and old metadata — which is neither the previous pair nor the new
pair, so the three artifacts are not replaced together-or-not-at-all. -/
theorem train_half_written_pair_observable :
    ((trainObservableStates sqrtApprox db5 0 none 1 false stW).map fun s => s.files 0) =
      [ArtifactState.mk 0 0 0, ArtifactState.mk 0 0 0, ArtifactState.mk 1 0 0,
       ArtifactState.mk 1 1 0, ArtifactState.mk 1 1 1] ∧
    ArtifactState.mk 1 0 0 ≠ ArtifactState.mk 0 0 0 ∧
    ArtifactState.mk 1 0 0 ≠ ArtifactState.mk 1 1 1 ∧
    ((trainObservableStates sqrtApprox db4 0 none 1 false stW).map fun s => s.files 0) =
      [ArtifactState.mk 0 0 0, ArtifactState.mk 0 0 0] ∧
    ((trainObservableStates sqrtApprox db5 0 none 1 true stW).map fun s => s.files 0) =
      [ArtifactState.mk 0 0 0, ArtifactState.mk 0 0 0] := by decide

/-- C10: `train` for one school mutates only that school's state.  Its
final state keeps exactly the cache entries whose key's school component
differs from the trained school (whether the run fails the gate, fails
during fit, or succeeds), and the artifact directories of every other
school are unchanged; in particular the cache entries of every other
school are preserved verbatim. -/
theorem train_frame_other_schools (sqrtFn : ℚ → ℚ) (db : Db) (sid : ℕ)
    (period : Option String) (v : ℕ) (fitFails : Bool) (st : SysState) (s' : ℕ)
    (hne : s' ≠ sid) :
    (trainRunState sqrtFn db sid period v fitFails st).cache =
      st.cache.filter (fun e => e.1.school != sid) ∧
    (trainRunState sqrtFn db sid period v fitFails st).files s' = st.files s' ∧
    (trainRunState sqrtFn db sid period v fitFails st).cache.filter
        (fun e => e.1.school == s') =
      st.cache.filter (fun e => e.1.school == s') := by
  have hfilter : ∀ (c : List (CacheKey × List Prediction)),
      (c.filter fun e => e.1.school != sid).filter (fun e => e.1.school == s') =
        c.filter (fun e => e.1.school == s') := by
    intro c
    induction c with
    | nil => rfl
    | cons e rest ih =>
      by_cases h1 : (e.1.school == s') = true
      · have h2 : (e.1.school != sid) = true := by
          have : e.1.school = s' := by simpa using h1
          simp [this, hne]
        simp only [List.filter_cons, h1, h2, if_true, if_pos]
        rw [ih]
      · by_cases h2 : (e.1.school != sid) = true <;>
          simp only [List.filter_cons, h1, h2] <;> simp [ih, h1]
  rw [trainRunState]
  split
  · exact ⟨rfl, rfl, hfilter st.cache⟩
  · split
    · exact ⟨rfl, rfl, hfilter st.cache⟩
    · refine ⟨rfl, ?_, hfilter st.cache⟩
      simp [writeMetaFile, writeDropoutFile, writeGradeFile, clearCacheFor, hne]

/-- C10 witness: training school 0 on a state holding cache entries and
artifacts for schools 0 and 1 leaves school 1's state untouched. -/
theorem train_frame_other_schools_witness :
    (trainRunState sqrtApprox db5 0 none 1 false stW).cache =
      stW.cache.filter (fun e => e.1.school != 0) ∧
    (trainRunState sqrtApprox db5 0 none 1 false stW).files 1 = stW.files 1 ∧
    (trainRunState sqrtApprox db5 0 none 1 false stW).cache.filter
        (fun e => e.1.school == 1) =
      stW.cache.filter (fun e => e.1.school == 1) :=
  train_frame_other_schools sqrtApprox db5 0 none 1 false stW 1 (by decide)

/-- C6 witness: the gate iff applied to the concrete four-student
database. -/
theorem train_gate_iff_witness :
    trainCore sqrtApprox db4 0 none = .error (.insufficientData 4) ↔
      (4 = (buildFeatureRows sqrtApprox db4 0 none).length ∧ 4 < MIN_TRAINING_SAMPLES) :=
  train_gate_iff.1 sqrtApprox db4 0 none 4
